import Mathlib

/-!
Shallow embedding of `src/expense_tracker.py` (SQLite-backed expense ledger)
and proofs about its specified behaviour.

Modelling conventions:
* SQLite's table of expenses is a Lean structure `DB`: the list of rows in
  rowid (insertion) order plus the AUTOINCREMENT counter (`nextId`).
* `REAL` amounts are modelled as exact rationals (`Rat`); text columns as
  `String` (Lean code points; UTF-8 byte order used by SQLite BINARY
  collation agrees with code-point order, so the string comparison below is
  faithful).
* Python's `datetime.strptime(s, "%Y-%m-%d")` is embedded character by
  character: the regex it compiles accepts a 4-digit year, a dash, a month of
  one or two digits with value 1..12, a dash, and a day of one or two digits
  with value 1..31, consuming the whole string; the `datetime` constructor
  then requires year >= 1 and the day to exist in the Gregorian month.
  Digits are modelled as ASCII digits.
* `ORDER BY expense_date DESC` is modelled as a stable sort (SQLite sorts the
  rowid-ordered scan with a stable merge; here a stable insertion sort) by
  the byte order on `expense_date`, descending.
* Each Python function returns `None` on every path (it prints instead of
  returning); the embedded operations therefore carry an explicit `ret`
  field holding the value returned to the caller, plus a `signal` recording
  which message branch executed.
-/

/-- Byte-order comparison of two code-point lists, `<=`; agrees with SQLite's
BINARY (memcmp over UTF-8) collation on the corresponding strings. -/
def charListLe : List Char → List Char → Bool
  | [], _ => true
  | _ :: _, [] => false
  | a :: as, b :: bs =>
    if a.toNat < b.toNat then true
    else if b.toNat < a.toNat then false
    else charListLe as bs

/-- String order used by `ORDER BY` on the TEXT columns. -/
def strLe (a b : String) : Bool := charListLe a.data b.data

/-- Strict version of `strLe`. -/
def strLt (a b : String) : Bool := strLe a b && !(strLe b a)

/-- Splitting a character list at the dashes, as the `%Y-%m-%d` pattern does
with its two literal `-` separators. -/
def splitDashes : List Char → List (List Char)
  | [] => [[]]
  | c :: cs =>
    if c = '-' then [] :: splitDashes cs
    else
      match splitDashes cs with
      | [] => [[c]]
      | p :: ps => (c :: p) :: ps

/-- Numeric value of a digit string, as Python `int()` on the captured group. -/
def digitsToNat (cs : List Char) : Nat :=
  cs.foldl (fun a c => 10 * a + (c.toNat - 48)) 0

/-- All characters are ASCII digits. -/
def allDigits (cs : List Char) : Bool := cs.all (fun c => c.isDigit)

/-- Gregorian leap-year rule used by Python `datetime`. -/
def isLeapYear (y : Nat) : Bool :=
  (y % 4 == 0 && y % 100 != 0) || y % 400 == 0

/-- Length of a month in the proleptic Gregorian calendar of `datetime`. -/
def daysInMonth (y m : Nat) : Nat :=
  if m = 2 then (if isLeapYear y then 29 else 28)
  else if m = 4 ∨ m = 6 ∨ m = 9 ∨ m = 11 then 30
  else 31

/-- The pattern-matching stage of `datetime.strptime(date_str, "%Y-%m-%d")`:
`%Y` matches exactly four digits, `%m` one or two digits with value 1..12,
`%d` one or two digits with value 1..31, the dashes match literally, and the
whole string must be consumed. Returns the captured (year, month, day). -/
def strptimeYmd (s : String) : Option (Nat × Nat × Nat) :=
  match splitDashes s.data with
  | [ys, ms, ds] =>
    if allDigits ys ∧ ys.length = 4
        ∧ allDigits ms ∧ 1 ≤ ms.length ∧ ms.length ≤ 2
        ∧ allDigits ds ∧ 1 ≤ ds.length ∧ ds.length ≤ 2 then
      let y := digitsToNat ys
      let m := digitsToNat ms
      let d := digitsToNat ds
      if 1 ≤ m ∧ m ≤ 12 ∧ 1 ≤ d ∧ d ≤ 31 then some (y, m, d) else none
    else none
  | _ => none

/-- Whether `datetime.strptime(date_str, "%Y-%m-%d")` succeeds: the pattern
matches and the `datetime` constructor accepts the captured values
(year at least `MINYEAR = 1`; the day exists in that month). -/
def validDate (s : String) : Bool :=
  match strptimeYmd s with
  | some (y, m, d) => decide (1 ≤ y) && decide (d ≤ daysInMonth y m)
  | none => false

/-- Modelled from the spec wording of claim C1, for comparison with the
code's `validDate`: the strict `YYYY-MM-DD` format (exactly four digits,
dash, exactly two digits, dash, exactly two digits) denoting a real
Gregorian calendar date. -/
def specStrictDate (s : String) : Bool :=
  match splitDashes s.data with
  | [ys, ms, ds] =>
    if allDigits ys ∧ ys.length = 4 ∧ allDigits ms ∧ ms.length = 2
        ∧ allDigits ds ∧ ds.length = 2 then
      let y := digitsToNat ys
      let m := digitsToNat ms
      let d := digitsToNat ds
      decide (1 ≤ y) && decide (1 ≤ m) && decide (m ≤ 12) && decide (1 ≤ d)
        && decide (d ≤ daysInMonth y m)
    else false
  | _ => false

/-- One row of the `expenses` table (`id INTEGER PRIMARY KEY AUTOINCREMENT,
expense_date TEXT, category TEXT, amount REAL, note TEXT`). -/
structure Row where
  id : Nat
  expense_date : String
  category : String
  amount : Rat
  note : String
deriving DecidableEq

/-- The ledger: the rows of the `expenses` table in rowid order together with
the AUTOINCREMENT counter for the next `id`. -/
structure DB where
  nextId : Nat
  rows : List Row
deriving DecidableEq

/-- `init_db`: `CREATE TABLE IF NOT EXISTS expenses (...)` on a fresh file.
AUTOINCREMENT assigns 1 to the first inserted row. -/
def init_db : DB := { nextId := 1, rows := [] }

/-- Which message branch `add_expense_auto` took: the `except ValueError`
branch prints the invalid-date message; the success branch prints the
added-expense line. -/
inductive AddSignal where
  | invalidDate
  | success
deriving DecidableEq

/-- Result of `add_expense_auto`: the ledger afterwards, the branch taken,
and the value the Python function returns to its caller (`None` on both
paths: the invalid branch is a bare `return`, the success branch falls off
the end). -/
structure AddRes where
  db : DB
  signal : AddSignal
  ret : Option Nat
deriving DecidableEq

/-- `add_expense_auto(date_str, category, amount, note)`: validate the date
with `strptime`; on failure print the invalid-date message and return with no
mutation; on success `INSERT INTO expenses (expense_date, category, amount,
note) VALUES (?, ?, ?, ?)` binds the four inputs unchanged, AUTOINCREMENT
assigns the id, and the row is appended in rowid order. -/
def add_expense_auto (db : DB) (date_str category : String) (amount : Rat)
    (note : String) : AddRes :=
  if validDate date_str then
    { db := { nextId := db.nextId + 1
              rows := db.rows ++ [{ id := db.nextId, expense_date := date_str,
                                    category := category, amount := amount,
                                    note := note }] }
      signal := AddSignal.success
      ret := none }
  else
    { db := db, signal := AddSignal.invalidDate, ret := none }

/-- Stable insertion of `x` into a list sorted descending by `key`: `x` goes
in front of the first element whose key is at most `key x`. -/
def insertDescBy (key : α → String) (x : α) : List α → List α
  | [] => [x]
  | y :: ys =>
    if strLe (key y) (key x) then x :: y :: ys
    else y :: insertDescBy key x ys

/-- Stable sort, descending by `key`: the model of SQLite `ORDER BY ... DESC`
applied to the rowid-ordered scan (SQLite sorts with a stable merge; any
stable descending sort yields the same list). -/
def sortDescBy (key : α → String) : List α → List α
  | [] => []
  | x :: xs => insertDescBy key x (sortDescBy key xs)

/-- The rows fetched by `view_expenses`:
`SELECT id, expense_date, category, amount, note FROM expenses
 ORDER BY expense_date DESC`. -/
def view_rows (db : DB) : List Row :=
  sortDescBy (fun r => r.expense_date) db.rows

/-- Observable outcome of `view_expenses`: the empty branch prints
the no-expenses message; otherwise the fetched rows are printed as a table. -/
inductive ViewRes where
  | empty
  | table (rows : List Row)
deriving DecidableEq

/-- `view_expenses()`: fetch all rows ordered by date descending; report the
explicit empty outcome when there are none, else the table of rows. -/
def view_expenses (db : DB) : ViewRes :=
  if (view_rows db).isEmpty then ViewRes.empty else ViewRes.table (view_rows db)

/-- `substr(expense_date, 1, 7)`: the first seven characters of the date
(SQLite `substr` counts characters on TEXT). -/
def monthOf (r : Row) : String := String.mk (r.expense_date.data.take 7)

/-- The distinct month keys produced by `GROUP BY month`, ordered by
`ORDER BY month DESC`. -/
def monthsDesc (db : DB) : List String :=
  sortDescBy (fun m => m) (db.rows.map monthOf).dedup

/-- `SUM(amount)` over one month group. -/
def monthTotal (db : DB) (m : String) : Rat :=
  ((db.rows.filter (fun r => monthOf r == m)).map Row.amount).sum

/-- The rows fetched by `monthly_summary`:
`SELECT substr(expense_date, 1, 7) AS month, SUM(amount) AS total
 FROM expenses GROUP BY month ORDER BY month DESC`. -/
def monthly_rows (db : DB) : List (String × Rat) :=
  (monthsDesc db).map (fun m => (m, monthTotal db m))

/-- Observable outcome of `monthly_summary`: the empty branch prints the
no-data message; otherwise the month/total pairs are printed. -/
inductive SummaryRes where
  | empty
  | table (rows : List (String × Rat))
deriving DecidableEq

/-- `monthly_summary()`: fetch the grouped totals; report the explicit empty
outcome when there are none, else the table of pairs. -/
def monthly_summary (db : DB) : SummaryRes :=
  if (monthly_rows db).isEmpty then SummaryRes.empty
  else SummaryRes.table (monthly_rows db)

/-- The header row `writer.writerow(["Date", "Category", "Amount", "Note"])`. -/
def csv_header : List String := ["Date", "Category", "Amount", "Note"]

/-- The rows fetched by `export_csv`:
`SELECT expense_date, category, amount, note FROM expenses` with no ORDER BY,
so the scan returns them in rowid order. -/
def export_select (db : DB) : List (String × String × Rat × String) :=
  db.rows.map (fun r => (r.expense_date, r.category, r.amount, r.note))

/-- The file `export_csv` writes, at the level of logical rows and fields:
the header row followed by the fetched data rows. -/
structure CsvFile where
  header : List String
  dataRows : List (String × String × Rat × String)
deriving DecidableEq

/-- Which message branch `export_csv` took: the empty branch prints the
no-data message and writes nothing; the other branch writes the file and
prints its absolute path. -/
inductive ExportSignal where
  | noDataToExport
  | exported
deriving DecidableEq

/-- Result of `export_csv`: the branch taken, the file written (if any), and
the value the Python function returns to its caller (`None` on both paths:
the empty branch is a bare `return`, the success branch falls off the end
after printing the absolute path). -/
structure ExportRes where
  signal : ExportSignal
  file : Option CsvFile
  ret : Option String
deriving DecidableEq

/-- `export_csv(fname)`: fetch all rows; on an empty ledger print the no-data
message and write no file; otherwise write the header row and all data rows. -/
def export_csv (db : DB) : ExportRes :=
  if (export_select db).isEmpty then
    { signal := ExportSignal.noDataToExport, file := none, ret := none }
  else
    { signal := ExportSignal.exported
      file := some { header := csv_header, dataRows := export_select db }
      ret := none }

/-- One call into the core: the four public operations. -/
inductive Op where
  | add (date_str category : String) (amount : Rat) (note : String)
  | view
  | summary
  | exportOp

/-- Effect of one operation on the ledger: only a successful insert mutates
it; the three read operations leave it unchanged. -/
def step (db : DB) : Op → DB
  | Op.add d c a n => (add_expense_auto db d c a n).db
  | Op.view => db
  | Op.summary => db
  | Op.exportOp => db

/-- Running a sequence of operations from a given ledger. -/
def run : DB → List Op → DB
  | db, [] => db
  | db, op :: ops => run (step db op) ops

/-- Ledger states reachable from a freshly initialized database. -/
def Reachable (db : DB) : Prop := ∃ ops, run init_db ops = db

/-- The storage invariant: rowids are strictly increasing along the table
(so every id is unique and rows sit in insertion order), and every assigned
id is below the AUTOINCREMENT counter. -/
def LedgerInv (db : DB) : Prop :=
  (db.rows.map Row.id).Pairwise (· < ·) ∧ ∀ r ∈ db.rows, r.id < db.nextId

lemma char_toNat_inj {a b : Char} (h : a.toNat = b.toNat) : a = b :=
  Char.eq_of_val_eq (UInt32.toNat.inj h)

lemma charListLe_refl : ∀ x : List Char, charListLe x x = true
  | [] => rfl
  | a :: as => by simp [charListLe, charListLe_refl as]

lemma charListLe_total : ∀ x y : List Char,
    charListLe x y = true ∨ charListLe y x = true
  | [], _ => Or.inl rfl
  | _ :: _, [] => Or.inr rfl
  | a :: as, b :: bs => by
    rcases Nat.lt_trichotomy a.toNat b.toNat with h | h | h
    · exact Or.inl (by simp [charListLe, h])
    · rcases charListLe_total as bs with ih | ih
      · exact Or.inl (by simp [charListLe, h, ih])
      · exact Or.inr (by simp [charListLe, h.symm, ih])
    · exact Or.inr (by simp [charListLe, h])

lemma charListLe_trans : ∀ x y z : List Char, charListLe x y = true →
    charListLe y z = true → charListLe x z = true
  | [], _, _, _, _ => rfl
  | _ :: _, [], _, h, _ => by simp [charListLe] at h
  | _ :: _, _ :: _, [], _, h => by simp [charListLe] at h
  | a :: as, b :: bs, c :: cs, h1, h2 => by
    rcases Nat.lt_trichotomy a.toNat b.toNat with hab | hab | hab
    · rcases Nat.lt_trichotomy b.toNat c.toNat with hbc | hbc | hbc
      · simp [charListLe, Nat.lt_trans hab hbc]
      · simp [charListLe, hbc ▸ hab]
      · simp [charListLe, Nat.lt_asymm hbc, hbc] at h2
    · rcases Nat.lt_trichotomy b.toNat c.toNat with hbc | hbc | hbc
      · simp [charListLe, hab ▸ hbc]
      · have hac : a.toNat = c.toNat := hab.trans hbc
        have h1' : charListLe as bs = true := by
          simpa [charListLe, hab] using h1
        have h2' : charListLe bs cs = true := by
          simpa [charListLe, hbc] using h2
        simp [charListLe, hac, charListLe_trans as bs cs h1' h2']
      · simp [charListLe, Nat.lt_asymm hbc, hbc] at h2
    · simp [charListLe, Nat.lt_asymm hab, hab] at h1

lemma charListLe_antisymm : ∀ x y : List Char, charListLe x y = true →
    charListLe y x = true → x = y
  | [], [], _, _ => rfl
  | [], _ :: _, _, h => by simp [charListLe] at h
  | _ :: _, [], h, _ => by simp [charListLe] at h
  | a :: as, b :: bs, h1, h2 => by
    rcases Nat.lt_trichotomy a.toNat b.toNat with hab | hab | hab
    · simp [charListLe, Nat.lt_asymm hab, hab] at h2
    · have h1' : charListLe as bs = true := by simpa [charListLe, hab] using h1
      have h2' : charListLe bs as = true := by simpa [charListLe, hab] using h2
      rw [char_toNat_inj hab, charListLe_antisymm as bs h1' h2']
    · simp [charListLe, Nat.lt_asymm hab, hab] at h1

lemma strLe_refl (a : String) : strLe a a = true := charListLe_refl a.data

lemma strLe_total (a b : String) : strLe a b = true ∨ strLe b a = true :=
  charListLe_total a.data b.data

lemma strLe_trans {a b c : String} (h1 : strLe a b = true)
    (h2 : strLe b c = true) : strLe a c = true :=
  charListLe_trans a.data b.data c.data h1 h2

lemma strLe_antisymm {a b : String} (h1 : strLe a b = true)
    (h2 : strLe b a = true) : a = b := by
  cases a; cases b
  exact congrArg String.mk (charListLe_antisymm _ _ h1 h2)

lemma strLt_of_le_of_ne {a b : String} (h : strLe a b = true) (hne : a ≠ b) :
    strLt a b = true := by
  have : strLe b a = false := by
    cases hba : strLe b a
    · rfl
    · exact absurd (strLe_antisymm h hba) hne
  simp [strLt, h, this]

lemma insertDescBy_perm {α : Type _} (key : α → String) (x : α) :
    ∀ l : List α, (insertDescBy key x l).Perm (x :: l)
  | [] => List.Perm.refl _
  | y :: ys => by
    rw [insertDescBy]
    by_cases h : strLe (key y) (key x) = true
    · rw [if_pos h]
    · rw [if_neg h]
      exact ((insertDescBy_perm key x ys).cons y).trans (List.Perm.swap x y ys)

lemma sortDescBy_perm {α : Type _} (key : α → String) :
    ∀ l : List α, (sortDescBy key l).Perm l
  | [] => List.Perm.refl _
  | x :: xs =>
    (insertDescBy_perm key x (sortDescBy key xs)).trans
      ((sortDescBy_perm key xs).cons x)

lemma mem_insertDescBy {α : Type _} {key : α → String} {x z : α} {l : List α} :
    z ∈ insertDescBy key x l ↔ z = x ∨ z ∈ l := by
  rw [(insertDescBy_perm key x l).mem_iff, List.mem_cons]

lemma insertDescBy_pairwise {α : Type _} (key : α → String) (R : α → α → Prop)
    (x : α) : ∀ l : List α, (∀ y ∈ l, R x y) →
    l.Pairwise (fun a b => strLe (key b) (key a) = true ∧ (key a = key b → R a b)) →
    (insertDescBy key x l).Pairwise
      (fun a b => strLe (key b) (key a) = true ∧ (key a = key b → R a b))
  | [], _, _ => List.pairwise_singleton _ _
  | y :: ys, hR, hp => by
    rw [insertDescBy]
    rcases List.pairwise_cons.mp hp with ⟨hy, hys⟩
    by_cases h : strLe (key y) (key x) = true
    · rw [if_pos h]
      refine List.pairwise_cons.mpr ⟨?_, hp⟩
      intro w hw
      rcases List.mem_cons.mp hw with rfl | hw
      · exact ⟨h, fun _ => hR w (List.mem_cons_self _ _)⟩
      · exact ⟨strLe_trans (hy w hw).1 h, fun _ => hR w (List.mem_cons_of_mem _ hw)⟩
    · rw [if_neg h]
      refine List.pairwise_cons.mpr ⟨?_, ?_⟩
      · intro z hz
        rcases mem_insertDescBy.mp hz with rfl | hz
        · refine ⟨?_, fun he => absurd (he ▸ strLe_refl (key y)) h⟩
          rcases strLe_total (key z) (key y) with h' | h'
          · exact h'
          · exact absurd h' h
        · exact hy z hz
      · exact insertDescBy_pairwise key R x ys
          (fun y' hy' => hR y' (List.mem_cons_of_mem _ hy')) hys

lemma sortDescBy_pairwise {α : Type _} (key : α → String) (R : α → α → Prop) :
    ∀ l : List α, l.Pairwise R →
    (sortDescBy key l).Pairwise
      (fun a b => strLe (key b) (key a) = true ∧ (key a = key b → R a b))
  | [], _ => List.Pairwise.nil
  | x :: xs, hp => by
    rcases List.pairwise_cons.mp hp with ⟨hx, hxs⟩
    rw [sortDescBy]
    refine insertDescBy_pairwise key R x (sortDescBy key xs) ?_
      (sortDescBy_pairwise key R xs hxs)
    intro y hy
    exact hx y ((sortDescBy_perm key xs).mem_iff.mp hy)

lemma sum_map_filter_split (p : Row → Bool) :
    ∀ l : List Row,
    ((l.filter p).map Row.amount).sum
        + ((l.filter (fun r => !(p r))).map Row.amount).sum
      = (l.map Row.amount).sum
  | [] => by simp
  | r :: l => by
    by_cases h : p r
    · simp only [List.filter_cons, h, Bool.not_true, if_pos, if_neg,
        Bool.false_eq_true, not_false_iff, List.map_cons, List.sum_cons]
      rw [add_assoc, sum_map_filter_split p l]
    · have h' : p r = false := by simpa using h
      simp only [List.filter_cons, h', Bool.not_false, if_pos, if_neg,
        Bool.false_eq_true, not_false_iff, List.map_cons, List.sum_cons]
      rw [add_left_comm, sum_map_filter_split p l]

lemma sum_over_months : ∀ (ms : List String) (l : List Row), ms.Nodup →
    (∀ r ∈ l, monthOf r ∈ ms) →
    (ms.map (fun m =>
        ((l.filter (fun r => monthOf r == m)).map Row.amount).sum)).sum
      = (l.map Row.amount).sum
  | [], l, _, hc => by
    have hl : l = [] := by
      cases l with
      | nil => rfl
      | cons r l => exact absurd (hc r (List.mem_cons_self r l)) (List.not_mem_nil _)
    simp [hl]
  | m :: ms, l, hnd, hc => by
    rcases List.nodup_cons.mp hnd with ⟨hm, hnd'⟩
    have hfix : ∀ m' ∈ ms,
        (l.filter (fun r => !(monthOf r == m))).filter (fun r => monthOf r == m')
          = l.filter (fun r => monthOf r == m') := by
      intro m' hm'
      rw [List.filter_filter]
      refine List.filter_congr ?_
      intro r _
      have hne : ¬ m' = m := fun he => hm (he ▸ hm')
      by_cases h : monthOf r = m'
      · simp [h, hne]
      · simp [h]
    have hcov : ∀ r ∈ l.filter (fun r => !(monthOf r == m)), monthOf r ∈ ms := by
      intro r hr
      rcases List.mem_filter.mp hr with ⟨hrl, hne⟩
      have : ¬ monthOf r = m := by simpa using hne
      rcases List.mem_cons.mp (hc r hrl) with h | h
      · exact absurd h this
      · exact h
    have ih := sum_over_months ms (l.filter (fun r => !(monthOf r == m))) hnd' hcov
    calc (( (m :: ms)).map (fun m' =>
            ((l.filter (fun r => monthOf r == m')).map Row.amount).sum)).sum
        = ((l.filter (fun r => monthOf r == m)).map Row.amount).sum
            + (ms.map (fun m' =>
                ((l.filter (fun r => monthOf r == m')).map Row.amount).sum)).sum := by
          simp
      _ = ((l.filter (fun r => monthOf r == m)).map Row.amount).sum
            + (ms.map (fun m' =>
                (((l.filter (fun r => !(monthOf r == m))).filter
                    (fun r => monthOf r == m')).map Row.amount).sum)).sum := by
          have hmap : ms.map (fun m' =>
                ((l.filter (fun r => monthOf r == m')).map Row.amount).sum)
              = ms.map (fun m' =>
                (((l.filter (fun r => !(monthOf r == m))).filter
                    (fun r => monthOf r == m')).map Row.amount).sum) :=
            List.map_congr_left (fun m' hm' => by rw [hfix m' hm'])
          rw [hmap]
      _ = (l.map Row.amount).sum := by
          rw [ih, sum_map_filter_split (fun r => monthOf r == m) l]

lemma ledgerInv_add (db : DB) (d c : String) (a : Rat) (n : String)
    (h : LedgerInv db) : LedgerInv (add_expense_auto db d c a n).db := by
  rcases h with ⟨h1, h2⟩
  by_cases hv : validDate d = true
  · simp only [add_expense_auto, if_pos hv]
    refine ⟨?_, ?_⟩
    · rw [List.map_append, List.pairwise_append]
      refine ⟨h1, List.pairwise_singleton _ _, ?_⟩
      intro i hi j hj
      rcases List.mem_map.mp hi with ⟨r, hr, rfl⟩
      rcases List.mem_singleton.mp hj with rfl
      exact h2 r hr
    · intro r hr
      rcases List.mem_append.mp hr with hr | hr
      · exact Nat.lt_succ_of_lt (h2 r hr)
      · rcases List.mem_singleton.mp hr with rfl
        exact Nat.lt_succ_self _
  · simpa only [add_expense_auto, if_neg hv] using And.intro h1 h2

lemma ledgerInv_step (db : DB) (op : Op) (h : LedgerInv db) :
    LedgerInv (step db op) := by
  cases op with
  | add d c a n => exact ledgerInv_add db d c a n h
  | view => exact h
  | summary => exact h
  | exportOp => exact h

lemma ledgerInv_run : ∀ (ops : List Op) (db : DB),
    LedgerInv db → LedgerInv (run db ops)
  | [], _, h => h
  | op :: ops, db, h => ledgerInv_run ops _ (ledgerInv_step db op h)

lemma ledgerInv_init : LedgerInv init_db := by
  refine ⟨?_, ?_⟩ <;> simp [init_db]

lemma reachable_inv {db : DB} (h : Reachable db) : LedgerInv db := by
  rcases h with ⟨ops, rfl⟩
  exact ledgerInv_run ops init_db ledgerInv_init

lemma step_rows_extend (db : DB) (op : Op) :
    ∃ t, db.rows ++ t = (step db op).rows := by
  cases op with
  | add d c a n =>
    by_cases hv : validDate d = true
    · exact ⟨[{ id := db.nextId, expense_date := d, category := c,
                amount := a, note := n }],
        by simp [step, add_expense_auto, if_pos hv]⟩
    · exact ⟨[], by simp [step, add_expense_auto, if_neg hv]⟩
  | view => exact ⟨[], by simp [step]⟩
  | summary => exact ⟨[], by simp [step]⟩
  | exportOp => exact ⟨[], by simp [step]⟩

lemma step_nextId_mono (db : DB) (op : Op) :
    db.nextId ≤ (step db op).nextId := by
  cases op with
  | add d c a n =>
    by_cases hv : validDate d = true
    · simp [step, add_expense_auto, if_pos hv]
    · simp [step, add_expense_auto, if_neg hv]
  | view => exact Nat.le_refl _
  | summary => exact Nat.le_refl _
  | exportOp => exact Nat.le_refl _

lemma view_rows_perm (db : DB) : (view_rows db).Perm db.rows := by
  simp only [view_rows]
  exact sortDescBy_perm (fun r => r.expense_date) db.rows

lemma mem_monthsDesc {db : DB} {r : Row} (hr : r ∈ db.rows) :
    monthOf r ∈ monthsDesc db :=
  (sortDescBy_perm (fun m => m) (db.rows.map monthOf).dedup).mem_iff.mpr
    (List.mem_dedup.mpr (List.mem_map_of_mem monthOf hr))

lemma monthsDesc_nodup (db : DB) : (monthsDesc db).Nodup :=
  ((sortDescBy_perm (fun m => m) (db.rows.map monthOf).dedup).nodup_iff).mpr
    (List.nodup_dedup _)

lemma add_rows_eq (db : DB) (d c : String) (a : Rat) (n : String)
    (hv : validDate d = true) :
    (add_expense_auto db d c a n).db.rows
      = db.rows ++ [{ id := db.nextId, expense_date := d, category := c,
                      amount := a, note := n }] := by
  simp [add_expense_auto, hv]

/-- C1, corrected, counterexample: the claim says every string that does not
match the strict `YYYY-MM-DD` format is rejected with InvalidDate and no
storage mutation. The string `2025-6-1` does not match the strict format
(its month and day are single digits), yet the code's `strptime("%Y-%m-%d")`
accepts it: insert takes the success branch and the record count grows. -/
theorem C1_counterexample :
    specStrictDate "2025-6-1" = false
    ∧ (add_expense_auto init_db "2025-6-1" "Food" 5 "x").signal
        = AddSignal.success
    ∧ (add_expense_auto init_db "2025-6-1" "Food" 5 "x").db.rows.length
        = init_db.rows.length + 1 := by
  refine ⟨by decide, by decide, by decide⟩

/-- C1 as amended: for every input string rejected by the code's validation
(the `%Y-%m-%d` pattern, which allows one- or two-digit months and days, or
not a real Gregorian calendar date), insert signals InvalidDate and performs
no storage mutation, so the record count is unchanged; such a string is
never accepted. -/
theorem C1_amended_date_rejection (db : DB) (s c : String) (a : Rat)
    (n : String) (h : validDate s = false) :
    (add_expense_auto db s c a n).signal = AddSignal.invalidDate
    ∧ (add_expense_auto db s c a n).db = db
    ∧ (add_expense_auto db s c a n).db.rows.length = db.rows.length := by
  refine ⟨?_, ?_, ?_⟩ <;> simp [add_expense_auto, h]

/-- Witness for C1: the spec's own examples are rejected with no mutation. -/
theorem C1_witness :
    validDate "2025-13-01" = false ∧ validDate "not-a-date" = false
    ∧ (add_expense_auto init_db "2025-13-01" "Bad" 10 "x").signal
        = AddSignal.invalidDate
    ∧ (add_expense_auto init_db "2025-13-01" "Bad" 10 "x").db = init_db
    ∧ (add_expense_auto init_db "2025-13-01" "Bad" 10 "x").db.rows.length
        = init_db.rows.length :=
  ⟨by decide, by decide,
    (C1_amended_date_rejection init_db "2025-13-01" "Bad" 10 "x" (by decide)).1,
    (C1_amended_date_rejection init_db "2025-13-01" "Bad" 10 "x" (by decide)).2.1,
    (C1_amended_date_rejection init_db "2025-13-01" "Bad" 10 "x" (by decide)).2.2⟩

/-- C2: the monthly aggregation groups records by the first seven characters
of `expense_date`; each returned total is the sum of `amount` over exactly
the records sharing that month prefix; every record is counted in some
returned month; and the sum of the returned totals equals the sum of all
amounts in the ledger. -/
theorem C2_monthly_aggregation (db : DB) :
    (∀ p ∈ monthly_rows db,
        p.2 = ((db.rows.filter (fun r => monthOf r == p.1)).map Row.amount).sum)
    ∧ (∀ r ∈ db.rows, monthOf r ∈ (monthly_rows db).map Prod.fst)
    ∧ ((monthly_rows db).map Prod.snd).sum = (db.rows.map Row.amount).sum := by
  refine ⟨?_, ?_, ?_⟩
  · intro p hp
    rcases List.mem_map.mp hp with ⟨m, _, rfl⟩
    rfl
  · intro r hr
    have h2 : (monthly_rows db).map Prod.fst = monthsDesc db := by
      simp only [monthly_rows, List.map_map]
      exact List.map_id _
    rw [h2]
    exact mem_monthsDesc hr
  · have h2 : (monthly_rows db).map Prod.snd
        = (monthsDesc db).map (fun m => monthTotal db m) := by
      simp [monthly_rows, Function.comp]
    rw [h2]
    simpa [monthTotal] using
      sum_over_months (monthsDesc db) db.rows (monthsDesc_nodup db)
        (fun r hr => mem_monthsDesc hr)

/-- C3, corrected, counterexample: the claim says that after inserting a
valid input into any ledger state, listing yields exactly one record whose
four fields equal the input. Inserting the same valid input twice from a
fresh ledger leaves two such records in the listing, not one. -/
theorem C3_counterexample :
    ((view_rows (add_expense_auto (add_expense_auto init_db
          "2025-06-01" "Groceries" 450 "Weekly veggies").db
          "2025-06-01" "Groceries" 450 "Weekly veggies").db).filter
        (fun r => r.expense_date == "2025-06-01" && r.category == "Groceries"
          && r.amount == 450 && r.note == "Weekly veggies")).length = 2 := by
  decide

/-- C3 as amended: inserting a valid input into any reachable ledger adds
exactly one new record: listing afterwards yields exactly one record carrying
the freshly assigned id, its four fields equal the input, and the listing has
exactly one more record than before. (Uniqueness of the new id among all
records is the filter returning a singleton.) -/
theorem C3_amended_round_trip (db : DB) (d c : String) (a : Rat) (n : String)
    (h : Reachable db) (hv : validDate d = true) :
    (view_rows (add_expense_auto db d c a n).db).filter
        (fun r => r.id == db.nextId)
      = [{ id := db.nextId, expense_date := d, category := c, amount := a,
           note := n }]
    ∧ (view_rows (add_expense_auto db d c a n).db).length
        = db.rows.length + 1 := by
  have hrows := add_rows_eq db d c a n hv
  have hperm := view_rows_perm (add_expense_auto db d c a n).db
  constructor
  · have hfil : ((add_expense_auto db d c a n).db.rows).filter
        (fun r => r.id == db.nextId)
        = [{ id := db.nextId, expense_date := d, category := c, amount := a,
             note := n }] := by
      rw [hrows, List.filter_append]
      have hold : db.rows.filter (fun r => r.id == db.nextId) = [] := by
        rw [List.filter_eq_nil_iff]
        intro r hr
        have hlt := (reachable_inv h).2 r hr
        simp only [beq_iff_eq]
        omega
      rw [hold]
      simp
    exact List.perm_singleton.mp
      ((hperm.filter _).trans (hfil ▸ List.Perm.refl _))
  · rw [hperm.length_eq, hrows, List.length_append]
    simp

/-- Witness for C3 as amended, at a fresh ledger and the first seed record. -/
theorem C3_witness :
    (view_rows (add_expense_auto init_db
          "2025-06-01" "Groceries" 450 "Weekly veggies").db).filter
        (fun r => r.id == init_db.nextId)
      = [{ id := init_db.nextId, expense_date := "2025-06-01",
           category := "Groceries", amount := 450, note := "Weekly veggies" }]
    ∧ (view_rows (add_expense_auto init_db
          "2025-06-01" "Groceries" 450 "Weekly veggies").db).length
        = init_db.rows.length + 1 :=
  C3_amended_round_trip init_db "2025-06-01" "Groceries" 450 "Weekly veggies"
    ⟨[], rfl⟩ (by decide)

/-- C4: on every reachable ledger, the listing is sorted by `expense_date`
descending with ties between equal dates in ascending id (insertion) order,
and the monthly aggregation output is sorted by month strictly descending. -/
theorem C4_output_ordering (db : DB) (h : Reachable db) :
    (view_rows db).Pairwise (fun a b =>
        strLe b.expense_date a.expense_date = true
        ∧ (a.expense_date = b.expense_date → a.id < b.id))
    ∧ ((monthly_rows db).map Prod.fst).Pairwise
        (fun a b => strLt b a = true) := by
  constructor
  · have hpw : db.rows.Pairwise (fun a b => a.id < b.id) :=
      List.pairwise_map.mp (reachable_inv h).1
    exact sortDescBy_pairwise (fun r => r.expense_date)
      (fun a b => a.id < b.id) db.rows hpw
  · have h2 : (monthly_rows db).map Prod.fst = monthsDesc db := by
      simp only [monthly_rows, List.map_map]
      exact List.map_id _
    rw [h2]
    have hnodup : ((db.rows.map monthOf).dedup).Pairwise (fun a b => a ≠ b) :=
      List.nodup_dedup _
    have hs := sortDescBy_pairwise (fun m => m) (fun a b => a ≠ b)
      (db.rows.map monthOf).dedup hnodup
    refine hs.imp ?_
    intro a b hab
    rcases hab with ⟨hle, hne⟩
    have hne' : a ≠ b := fun he => (hne he) he
    exact strLt_of_le_of_ne hle (Ne.symm hne')

/-- Witness for C4, on a ledger with a date tie (ids 1 and 3 share a date)
and two distinct months. -/
theorem C4_witness :
    (view_rows (run init_db [Op.add "2025-06-01" "a" 1 "x",
        Op.add "2025-05-02" "b" 2 "y",
        Op.add "2025-06-01" "c" 3 "z"])).Pairwise (fun a b =>
        strLe b.expense_date a.expense_date = true
        ∧ (a.expense_date = b.expense_date → a.id < b.id))
    ∧ ((monthly_rows (run init_db [Op.add "2025-06-01" "a" 1 "x",
        Op.add "2025-05-02" "b" 2 "y",
        Op.add "2025-06-01" "c" 3 "z"])).map Prod.fst).Pairwise
        (fun a b => strLt b a = true) :=
  C4_output_ordering (run init_db [Op.add "2025-06-01" "a" 1 "x",
    Op.add "2025-05-02" "b" 2 "y", Op.add "2025-06-01" "c" 3 "z"])
    ⟨[Op.add "2025-06-01" "a" 1 "x", Op.add "2025-05-02" "b" 2 "y",
      Op.add "2025-06-01" "c" 3 "z"], rfl⟩

/-- C5: on every non-empty ledger, export writes a file whose first row is
the literal header (the column names Date, Category, Amount, Note) followed
by exactly one data row, holding (expense_date, category, amount, note), per
record in the ledger at export time. -/
theorem C5_export_contents (db : DB) (h : db.rows ≠ []) :
    (export_csv db).signal = ExportSignal.exported
    ∧ (export_csv db).file
        = some { header := ["Date", "Category", "Amount", "Note"]
                 dataRows := db.rows.map (fun r =>
                   (r.expense_date, r.category, r.amount, r.note)) }
    ∧ (db.rows.map (fun r =>
        (r.expense_date, r.category, r.amount, r.note))).length
        = db.rows.length := by
  cases hrows : db.rows with
  | nil => exact absurd hrows h
  | cons r t =>
    refine ⟨?_, ?_, by simp⟩
    · simp [export_csv, export_select, hrows]
    · simp [export_csv, export_select, hrows, csv_header]

/-- Witness for C5, on the one-record ledger. -/
theorem C5_witness :
    (export_csv (add_expense_auto init_db
        "2025-06-01" "Groceries" 450 "Weekly veggies").db).signal
      = ExportSignal.exported
    ∧ (export_csv (add_expense_auto init_db
        "2025-06-01" "Groceries" 450 "Weekly veggies").db).file
      = some { header := ["Date", "Category", "Amount", "Note"]
               dataRows := (add_expense_auto init_db
                 "2025-06-01" "Groceries" 450 "Weekly veggies").db.rows.map
                 (fun r => (r.expense_date, r.category, r.amount, r.note)) }
    ∧ ((add_expense_auto init_db
        "2025-06-01" "Groceries" 450 "Weekly veggies").db.rows.map
        (fun r => (r.expense_date, r.category, r.amount, r.note))).length
      = (add_expense_auto init_db
        "2025-06-01" "Groceries" 450 "Weekly veggies").db.rows.length :=
  C5_export_contents (add_expense_auto init_db
    "2025-06-01" "Groceries" 450 "Weekly veggies").db (by decide)

/-- C6: on a ledger holding zero records, list and monthly aggregation report
their explicit empty outcome (a distinguished constructor of the result
type, not an error), export signals NoDataToExport and writes no file, and
none of the three operations changes the ledger state. -/
theorem C6_empty_ledger (db : DB) (h : db.rows = []) :
    view_expenses db = ViewRes.empty
    ∧ monthly_summary db = SummaryRes.empty
    ∧ (export_csv db).signal = ExportSignal.noDataToExport
    ∧ (export_csv db).file = none
    ∧ step db Op.view = db ∧ step db Op.summary = db
    ∧ step db Op.exportOp = db := by
  refine ⟨?_, ?_, ?_, ?_, rfl, rfl, rfl⟩ <;>
    simp [view_expenses, view_rows, monthly_summary, monthly_rows, monthsDesc,
      export_csv, export_select, h, sortDescBy]

/-- Witness for C6, on the freshly initialized ledger. -/
theorem C6_witness :
    view_expenses init_db = ViewRes.empty
    ∧ monthly_summary init_db = SummaryRes.empty
    ∧ (export_csv init_db).signal = ExportSignal.noDataToExport
    ∧ (export_csv init_db).file = none
    ∧ step init_db Op.view = init_db ∧ step init_db Op.summary = init_db
    ∧ step init_db Op.exportOp = init_db :=
  C6_empty_ledger init_db rfl

/-- C7, corrected, counterexample: the claim says a successful insert returns
the engine-assigned id and a successful export returns the absolute path
written. On a concrete successful insert followed by a successful export of
the resulting one-record ledger, both functions return None — neither
success value is returned to the caller; it is only printed. -/
theorem C7_counterexample :
    (add_expense_auto init_db
        "2025-06-01" "Groceries" 450 "Weekly veggies").signal
      = AddSignal.success
    ∧ (add_expense_auto init_db
        "2025-06-01" "Groceries" 450 "Weekly veggies").ret = none
    ∧ (export_csv (add_expense_auto init_db
        "2025-06-01" "Groceries" 450 "Weekly veggies").db).signal
      = ExportSignal.exported
    ∧ (export_csv (add_expense_auto init_db
        "2025-06-01" "Groceries" 450 "Weekly veggies").db).ret = none := by
  refine ⟨by decide, by decide, by decide, by decide⟩

/-- C7 as amended: successful operations return None rather than a success
value; the success information is printed instead — the insert takes its
success branch (which prints the added record) and returns None, and the
export on a non-empty ledger writes the file (and prints the absolute path)
and returns None. -/
theorem C7_amended_returns (db : DB) (d c : String) (a : Rat) (n : String)
    (hv : validDate d = true) (hne : db.rows ≠ []) :
    (add_expense_auto db d c a n).signal = AddSignal.success
    ∧ (add_expense_auto db d c a n).ret = none
    ∧ (export_csv db).signal = ExportSignal.exported
    ∧ (export_csv db).ret = none := by
  cases hrows : db.rows with
  | nil => exact absurd hrows hne
  | cons r t =>
    refine ⟨?_, ?_, ?_, ?_⟩ <;>
      simp [add_expense_auto, hv, export_csv, export_select, hrows]

/-- Witness for C7 as amended. -/
theorem C7_witness :
    (add_expense_auto (add_expense_auto init_db
        "2025-06-01" "Groceries" 450 "Weekly veggies").db
        "2025-06-02" "Transport" 100 "Auto fare").signal = AddSignal.success
    ∧ (add_expense_auto (add_expense_auto init_db
        "2025-06-01" "Groceries" 450 "Weekly veggies").db
        "2025-06-02" "Transport" 100 "Auto fare").ret = none
    ∧ (export_csv (add_expense_auto init_db
        "2025-06-01" "Groceries" 450 "Weekly veggies").db).signal
      = ExportSignal.exported
    ∧ (export_csv (add_expense_auto init_db
        "2025-06-01" "Groceries" 450 "Weekly veggies").db).ret = none :=
  C7_amended_returns (add_expense_auto init_db
      "2025-06-01" "Groceries" 450 "Weekly veggies").db
    "2025-06-02" "Transport" 100 "Auto fare" (by decide) (by decide)

/-- C8: on every reachable ledger the ids are strictly increasing along the
table (hence unique) and each is below the AUTOINCREMENT counter; every
operation only extends the rows (existing records, with their ids, are never
changed, reordered or removed) and never decreases the counter (so an
assigned id is never reused); a successful insert appends a record whose id
is the counter value, assigned by storage at insert. -/
theorem C8_id_invariants (db : DB) (op : Op) (d c : String) (a : Rat)
    (n : String) (h : Reachable db) (hv : validDate d = true) :
    (db.rows.map Row.id).Pairwise (· < ·)
    ∧ (∀ r ∈ db.rows, r.id < db.nextId)
    ∧ (∃ t, db.rows ++ t = (step db op).rows)
    ∧ db.nextId ≤ (step db op).nextId
    ∧ (add_expense_auto db d c a n).db.rows
        = db.rows ++ [{ id := db.nextId, expense_date := d, category := c,
                        amount := a, note := n }] :=
  ⟨(reachable_inv h).1, (reachable_inv h).2, step_rows_extend db op,
    step_nextId_mono db op, add_rows_eq db d c a n hv⟩

/-- Witness for C8 on a two-record reachable ledger and a further insert. -/
theorem C8_witness :
    ((run init_db [Op.add "2025-06-01" "Groceries" 450 "Weekly veggies",
        Op.add "2025-06-02" "Transport" 100 "Auto fare"]).rows.map
        Row.id).Pairwise (· < ·)
    ∧ (∀ r ∈ (run init_db [Op.add "2025-06-01" "Groceries" 450 "Weekly veggies",
        Op.add "2025-06-02" "Transport" 100 "Auto fare"]).rows,
        r.id < (run init_db [Op.add "2025-06-01" "Groceries" 450 "Weekly veggies",
          Op.add "2025-06-02" "Transport" 100 "Auto fare"]).nextId)
    ∧ (∃ t, (run init_db [Op.add "2025-06-01" "Groceries" 450 "Weekly veggies",
        Op.add "2025-06-02" "Transport" 100 "Auto fare"]).rows ++ t
        = (step (run init_db [Op.add "2025-06-01" "Groceries" 450 "Weekly veggies",
            Op.add "2025-06-02" "Transport" 100 "Auto fare"]) Op.view).rows)
    ∧ (run init_db [Op.add "2025-06-01" "Groceries" 450 "Weekly veggies",
        Op.add "2025-06-02" "Transport" 100 "Auto fare"]).nextId
        ≤ (step (run init_db [Op.add "2025-06-01" "Groceries" 450 "Weekly veggies",
            Op.add "2025-06-02" "Transport" 100 "Auto fare"]) Op.view).nextId
    ∧ (add_expense_auto (run init_db
        [Op.add "2025-06-01" "Groceries" 450 "Weekly veggies",
         Op.add "2025-06-02" "Transport" 100 "Auto fare"])
        "2025-06-03" "Snacks" 50 "Coffee").db.rows
        = (run init_db [Op.add "2025-06-01" "Groceries" 450 "Weekly veggies",
            Op.add "2025-06-02" "Transport" 100 "Auto fare"]).rows
          ++ [{ id := (run init_db
                [Op.add "2025-06-01" "Groceries" 450 "Weekly veggies",
                 Op.add "2025-06-02" "Transport" 100 "Auto fare"]).nextId,
                expense_date := "2025-06-03", category := "Snacks",
                amount := 50, note := "Coffee" }] :=
  C8_id_invariants (run init_db
      [Op.add "2025-06-01" "Groceries" 450 "Weekly veggies",
       Op.add "2025-06-02" "Transport" 100 "Auto fare"]) Op.view
    "2025-06-03" "Snacks" 50 "Coffee"
    ⟨[Op.add "2025-06-01" "Groceries" 450 "Weekly veggies",
      Op.add "2025-06-02" "Transport" 100 "Auto fare"], rfl⟩ (by decide)

/-- C9: insert stores the four inputs verbatim, with no normalization: the
persisted row holds exactly the given date string, category, amount and
note; that row appears as stored in the list output and verbatim among the
export rows, and its aggregation month is literally the first seven
characters of the stored string. (The witness instantiates this at the
non-zero-padded date accepted by validation.) -/
theorem C9_verbatim_fields (db : DB) (d c : String) (a : Rat) (n : String)
    (hv : validDate d = true) :
    (add_expense_auto db d c a n).db.rows
        = db.rows ++ [{ id := db.nextId, expense_date := d, category := c,
                        amount := a, note := n }]
    ∧ { id := db.nextId, expense_date := d, category := c, amount := a,
        note := n } ∈ view_rows (add_expense_auto db d c a n).db
    ∧ export_select (add_expense_auto db d c a n).db
        = export_select db ++ [(d, c, a, n)]
    ∧ String.mk (d.data.take 7)
        ∈ monthsDesc (add_expense_auto db d c a n).db := by
  have hrows := add_rows_eq db d c a n hv
  have hmem : ({ id := db.nextId, expense_date := d, category := c,
                 amount := a, note := n } : Row)
      ∈ (add_expense_auto db d c a n).db.rows := by
    rw [hrows]
    exact List.mem_append_right _ (List.mem_singleton_self _)
  refine ⟨hrows, ?_, ?_, ?_⟩
  · exact (view_rows_perm _).mem_iff.mpr hmem
  · simp [export_select, hrows]
  · simpa [monthOf] using mem_monthsDesc hmem

/-- Witness for C9 at the non-zero-padded date 2025-6-1, which the
validation accepts and the code stores without normalization. -/
theorem C9_witness :
    validDate "2025-6-1" = true
    ∧ (add_expense_auto init_db "2025-6-1" "Food" 5 "odd form").db.rows
        = init_db.rows ++ [{ id := init_db.nextId, expense_date := "2025-6-1",
                             category := "Food", amount := 5,
                             note := "odd form" }]
    ∧ { id := init_db.nextId, expense_date := "2025-6-1", category := "Food",
        amount := 5, note := "odd form" }
        ∈ view_rows (add_expense_auto init_db "2025-6-1" "Food" 5 "odd form").db
    ∧ export_select (add_expense_auto init_db "2025-6-1" "Food" 5 "odd form").db
        = export_select init_db ++ [("2025-6-1", "Food", 5, "odd form")]
    ∧ String.mk ("2025-6-1".data.take 7)
        ∈ monthsDesc (add_expense_auto init_db "2025-6-1" "Food" 5 "odd form").db :=
  ⟨by decide,
    (C9_verbatim_fields init_db "2025-6-1" "Food" 5 "odd form" (by decide)).1,
    (C9_verbatim_fields init_db "2025-6-1" "Food" 5 "odd form" (by decide)).2.1,
    (C9_verbatim_fields init_db "2025-6-1" "Food" 5 "odd form" (by decide)).2.2.1,
    (C9_verbatim_fields init_db "2025-6-1" "Food" 5 "odd form" (by decide)).2.2.2⟩

/-- C10: on every reachable non-empty ledger, export (whose SELECT has no
ORDER BY, so the scan returns rows in rowid order) emits one data row per
record, in the stored order of the table, whose ids are strictly
increasing — that is, ascending id, equal to insertion order. -/
theorem C10_export_scan_order (db : DB) (h : Reachable db)
    (hne : db.rows ≠ []) :
    (export_csv db).file
        = some { header := csv_header
                 dataRows := db.rows.map (fun r =>
                   (r.expense_date, r.category, r.amount, r.note)) }
    ∧ (db.rows.map Row.id).Pairwise (· < ·) := by
  constructor
  · cases hrows : db.rows with
    | nil => exact absurd hrows hne
    | cons r t => simp [export_csv, export_select, hrows]
  · exact (reachable_inv h).1

/-- Witness for C10 on a two-record reachable ledger. -/
theorem C10_witness :
    (export_csv (run init_db
        [Op.add "2025-06-02" "Transport" 100 "Auto fare",
         Op.add "2025-06-01" "Groceries" 450 "Weekly veggies"])).file
        = some { header := csv_header
                 dataRows := (run init_db
                   [Op.add "2025-06-02" "Transport" 100 "Auto fare",
                    Op.add "2025-06-01" "Groceries" 450 "Weekly veggies"]).rows.map
                   (fun r => (r.expense_date, r.category, r.amount, r.note)) }
    ∧ ((run init_db [Op.add "2025-06-02" "Transport" 100 "Auto fare",
        Op.add "2025-06-01" "Groceries" 450 "Weekly veggies"]).rows.map
        Row.id).Pairwise (· < ·) :=
  C10_export_scan_order (run init_db
      [Op.add "2025-06-02" "Transport" 100 "Auto fare",
       Op.add "2025-06-01" "Groceries" 450 "Weekly veggies"])
    ⟨[Op.add "2025-06-02" "Transport" 100 "Auto fare",
      Op.add "2025-06-01" "Groceries" 450 "Weekly veggies"], rfl⟩ (by decide)
